import Mathlib

/-!
Shallow embedding of the query/retry layer of the rodPro browser-automation
library: the bounded retry primitive NewRetry, the DOM search session
Page.Search with its SearchResult, the element-list resolver
Page.ElementsByJS, and the RaceContext race combinator.

Impure Go closures are modelled by invocation traces: an oracle function
from the invocation index to the observable result of that invocation.
Remote protocol calls issued by the code are recorded in explicit call
traces.  Go runtime faults (index out of range, nil pointer dereference)
are modelled by distinguished outcome constructors, never by default
values.
-/

namespace RodPro

/-- RuntimeRemoteObject subtype tags relevant to the query layer. -/
inductive RemoteSubtype where
  | null
  | node
  | array
  | otherSubtype
deriving DecidableEq, Repr

/-- RuntimeRemoteObject: the subtype tag and the remote object identity. -/
structure RemoteObject where
  subtype : RemoteSubtype
  objectID : String
deriving DecidableEq, Repr

/-- Errors of the query layer.  The two cdp sentinel errors and the rod
element-not-found error are the classifications the query code tests with
errors.Is; ErrExpectElements carries the offending remote object; every
other error value is opaque. -/
inductive GoError where
  | ctxNotFound
  | searchSessionNotFound
  | elementNotFound
  | expectElements (obj : RemoteObject)
  | otherError (code : Nat)
deriving DecidableEq, Repr

/-- errors.Is(err, cdp.ErrCtxNotFound). -/
def GoError.isCtxNotFound : GoError → Bool
  | .ctxNotFound => true
  | _ => false

/-- errors.Is(err, cdp.ErrSearchSessionNotFound). -/
def GoError.isSearchSessionNotFound : GoError → Bool
  | .searchSessionNotFound => true
  | _ => false

/-- errors.Is(err, ErrElementNotFound). -/
def GoError.isElementNotFound : GoError → Bool
  | .elementNotFound => true
  | _ => false

/-- NodeHandle: a node handle carries the remote object identity and the DOM
node identifier it was materialized from.  Sleeper rebinding on a handle
carries no data relevant to the claims and is dropped. -/
structure Element where
  objectID : String
  nodeID : Nat
deriving DecidableEq, Repr

/-- RetryOptions from the source.  The context and the Sleeper function are
modelled together as one oracle giving the result of the j-th Sleeper
invocation: none means the sleep completed, some e means the Sleeper failed
(for example because the context was cancelled).  MaxRetries is a Go int. -/
structure RetryOptions (E : Type) where
  sleeper : Nat → Option E
  maxRetries : Int

/-- Loop body of NewRetry from the source.  The impure closure fn is
modelled by an explicit state σ acted on at each invocation index.  The Go
function returns only the error; the final closure state and the number of
fn and Sleeper invocations are exposed so the specification can talk about
them.  The first Nat argument is the number of remaining iterations, the
second the current iteration index. -/
def NewRetryAux {E σ : Type} (sleeper : Nat → Option E)
    (fn : Nat → σ → σ × Bool × Option E) :
    Nat → Nat → σ → σ × Option E × Nat × Nat
  | 0, _, s => (s, none, 0, 0)
  | fuel + 1, i, s =>
    let r := fn i s
    if r.2.1 then
      (r.1, r.2.2, 1, 0)
    else
      match sleeper i with
      | some e => (r.1, some e, 1, 1)
      | none =>
        let rest := NewRetryAux sleeper fn fuel (i + 1) r.1
        (rest.1, rest.2.1, rest.2.2.1 + 1, rest.2.2.2 + 1)

/-- NewRetry from the source: run fn up to MaxRetries times; a true stop
flag returns the error of fn at once; otherwise the Sleeper runs and a
Sleeper failure is returned at once; exhausting all iterations returns
none (nil). -/
def NewRetry {E σ : Type} (options : RetryOptions E)
    (fn : Nat → σ → σ × Bool × Option E) (init : σ) :
    σ × Option E × Nat × Nat :=
  NewRetryAux options.sleeper fn options.maxRetries.toNat 0 init

/-- Stateless reading of a retried closure: the i-th invocation of fn
returns the pair (stop, err) given by the oracle. -/
def statelessFn {E : Type} (fn : Nat → Bool × Option E) :
    Nat → Unit → Unit × Bool × Option E :=
  fun i _ => ((), (fn i).1, (fn i).2)

/-- DOMPerformSearchResult from the protocol layer: the search session
identifier and the number of matches (a Go int). -/
structure DOMPerformSearchResult where
  searchID : String
  resultCount : Int
deriving DecidableEq, Repr

/-- SearchResult from the source, as pure data: the embedded (possibly nil)
DOMPerformSearchResult pointer and the First element.  The page pointer and
the restore closure carry no data relevant here; the restore invocation is
observable through SearchResult.Release. -/
structure SearchResult where
  performResult : Option DOMPerformSearchResult
  first : Option Element
deriving DecidableEq, Repr

/-- Remote protocol calls issued by Search, in the order they are sent. -/
inductive ProtoCall where
  | discardSearchResults (searchID : String)
  | performSearch (query : String)
  | getSearchResults (searchID : String) (fromIndex toIndex : Int)
  | getDocument
deriving DecidableEq, Repr

/-- State threaded through the retried search closure: the SearchResult
being filled in and the protocol calls issued so far. -/
structure SearchState where
  sr : SearchResult
  calls : List ProtoCall
deriving DecidableEq, Repr

/-- Oracle for the remote side during one Search call, indexed by the
attempt number: the response to the DOMPerformSearch of that attempt, the
response to the DOMGetSearchResults of that attempt (when issued), and
whether materializing the node handle fails on that attempt. -/
structure SearchEnv where
  performSearch : Nat → Except GoError DOMPerformSearchResult
  getSearchResults : Nat → Except GoError (List Nat)
  elementFromNodeFails : Nat → Option GoError

/-- Modelled from the spec: p.ElementFromNode is not part of the sources
under review; per the spec it materializes the node handle for the given
node identifier.  The environment chooses only whether the call fails on a
given attempt. -/
def elementFromNode (fails : Nat → Option GoError) (i : Nat) (id : Nat) :
    Except GoError Element :=
  match fails i with
  | some e => .error e
  | none => .ok { objectID := "", nodeID := id }

/-- Outcome of a Go computation that can also abort by a runtime fault:
user e is an error value returned normally; fault marks a Go runtime fault
(for the search closure, the index expression NodeIds[0] on an empty
slice). -/
inductive RunErr where
  | user (e : GoError)
  | fault
deriving DecidableEq, Repr

/-- The discard a search attempt issues before performing a new search,
present exactly when a previous DOMPerformSearchResult exists. -/
def preDiscard (sr : SearchResult) : List ProtoCall :=
  match sr.performResult with
  | some r => [ProtoCall.discardSearchResults r.searchID]
  | none => []

/-- The retried closure inside Page.Search from the source, translated
statement by statement; i is the attempt index (the invocation index of
the closure inside NewRetry). -/
def searchFn (env : SearchEnv) (query : String) (i : Nat) (s : SearchState) :
    SearchState × Bool × Option RunErr :=
  let s := { s with calls := s.calls ++ preDiscard s.sr }
  let s := { s with calls := s.calls ++ [ProtoCall.performSearch query] }
  match env.performSearch i with
  | .error e => (s, true, some (.user e))
  | .ok res =>
    let s := { s with sr := { s.sr with performResult := some res } }
    if res.resultCount = 0 then
      (s, false, none)
    else
      let s := { s with
        calls := s.calls ++ [ProtoCall.getSearchResults res.searchID 0 1] }
      match env.getSearchResults i with
      | .error e =>
        if e.isCtxNotFound || e.isSearchSessionNotFound then
          (s, false, none)
        else
          (s, true, some (.user e))
      | .ok ids =>
        match ids with
        | [] => (s, true, some .fault)
        | id :: _ =>
          if id = 0 then
            let s := { s with calls := s.calls ++ [ProtoCall.getDocument] }
            (s, false, none)
          else
            match elementFromNode env.elementFromNodeFails i id with
            | .error e => (s, true, some (.user e))
            | .ok el =>
              ({ s with sr := { s.sr with first := some el } }, true, none)

/-- Observable outcome of one Page.Search call: the returned SearchResult
(none when an error or fault is returned instead), the returned error, the
protocol calls issued, and the number of closure attempts and sleeps. -/
structure SearchRun where
  result : Option SearchResult
  error : Option RunErr
  calls : List ProtoCall
  attempts : Nat
  sleeps : Nat
deriving DecidableEq, Repr

/-- Page.Search from the source: build the empty SearchResult, run the
search closure through NewRetry with MaxRetries 3 and the page sleeper,
and return (nil, err) on error, (sr, nil) otherwise. -/
def pageSearch (env : SearchEnv) (sleeper : Nat → Option GoError)
    (query : String) : SearchRun :=
  let init : SearchState :=
    { sr := { performResult := none, first := none }, calls := [] }
  let r := NewRetry
    { sleeper := fun i => (sleeper i).map RunErr.user, maxRetries := 3 }
    (searchFn env query) init
  match r.2.1 with
  | some e =>
    { result := none, error := some e, calls := r.1.calls,
      attempts := r.2.2.1, sleeps := r.2.2.2 }
  | none =>
    { result := some r.1.sr, error := none, calls := r.1.calls,
      attempts := r.2.2.1, sleeps := r.2.2.2 }

/-- Actions performed by SearchResult.Release, in order. -/
inductive ReleaseAction where
  | restore
  | discard (searchID : String)
deriving DecidableEq, Repr

/-- Outcome of SearchResult.Release: either the actions performed, or a nil
pointer dereference fault together with the actions performed before the
fault. -/
inductive ReleaseOutcome where
  | ok (actions : List ReleaseAction)
  | nilDeref (actionsBefore : List ReleaseAction)
deriving DecidableEq, Repr

/-- Release from the source: s.restore() runs first, then the remote
discard with s.SearchID.  SearchID is read through the embedded
DOMPerformSearchResult pointer, so a nil embedded pointer is a runtime
fault occurring after the restore has already run. -/
def SearchResult.Release (s : SearchResult) : ReleaseOutcome :=
  match s.performResult with
  | none => .nilDeref [.restore]
  | some r => .ok [.restore, .discard r.searchID]

/-- One own-property entry returned by RuntimeGetProperties. -/
structure PropEntry where
  name : String
  value : RemoteObject
deriving DecidableEq, Repr

/-- Oracle for one Page.ElementsByJS call: the result of the remote
evaluation, the response to RuntimeGetProperties for a given object
identity, and the materialization of a handle from a remote object. -/
structure ElementsEnv where
  evaluate : Except GoError RemoteObject
  getProperties : String → Except GoError (List PropEntry)
  elementFromObject : RemoteObject → Except GoError Element

/-- The enumeration loop of Page.ElementsByJS from the source: skip the
entries named __proto__ or length, fail on a non-node entry, materialize
each node entry and accumulate in order. -/
def elementsLoop (env : ElementsEnv) :
    List PropEntry → List Element → Except GoError (List Element)
  | [], acc => .ok acc
  | obj :: rest, acc =>
    if obj.name = "__proto__" ∨ obj.name = "length" then
      elementsLoop env rest acc
    else if obj.value.subtype ≠ RemoteSubtype.node then
      .error (.expectElements obj.value)
    else
      match env.elementFromObject obj.value with
      | .error e => .error e
      | .ok el => elementsLoop env rest (acc ++ [el])

/-- Page.ElementsByJS from the source: evaluate, check the array subtype,
then (with the release of the array container deferred so it runs on every
later path) fetch the own properties and run the enumeration loop.  The
second component is the list of object identities passed to p.Release, in
order; the error of the deferred release is discarded by the source. -/
def elementsByJS (env : ElementsEnv) :
    Except GoError (List Element) × List String :=
  match env.evaluate with
  | .error e => (.error e, [])
  | .ok res =>
    if res.subtype ≠ RemoteSubtype.array then
      (.error (.expectElements res), [])
    else
      match env.getProperties res.objectID with
      | .error e => (.error e, [res.objectID])
      | .ok list => (elementsLoop env list [], [res.objectID])

instance {ε α : Type} [DecidableEq ε] [DecidableEq α] :
    DecidableEq (Except ε α) := fun a b =>
  match a, b with
  | .ok a, .ok b =>
    if h : a = b then isTrue (by rw [h]) else isFalse (by simp [h])
  | .error a, .error b =>
    if h : a = b then isTrue (by rw [h]) else isFalse (by simp [h])
  | .ok _, .error _ => isFalse (by simp)
  | .error _, .ok _ => isFalse (by simp)

/-- The own-property entries the enumeration loop does not skip, in
enumeration order. -/
def keptEntries : List PropEntry → List PropEntry
  | [] => []
  | o :: rest =>
    if o.name = "__proto__" ∨ o.name = "length" then keptEntries rest
    else o :: keptEntries rest

/-- One race branch from the source: the condition is an impure function of
the page, modelled by its trace over ticks; the callback is optional. -/
structure RaceBranch where
  condition : Nat → Except GoError Element
  callback : Option (Element → Option GoError)

/-- RaceContext from the source: the registered branches in registration
order. -/
structure RaceContext where
  branches : List RaceBranch

/-- ElementFunc from the source: register one more branch, with no
callback. -/
def RaceContext.ElementFunc (rc : RaceContext)
    (fn : Nat → Except GoError Element) : RaceContext :=
  { rc with branches := rc.branches ++ [{ condition := fn, callback := none }] }

/-- Handle from the source: rc.branches[len(rc.branches)-1].callback is
assigned; on an empty branch list the index expression is a Go runtime
fault, modelled as none. -/
def RaceContext.Handle (rc : RaceContext)
    (cb : Element → Option GoError) : Option RaceContext :=
  match rc.branches.getLast? with
  | none => none
  | some b =>
    some { rc with
      branches := rc.branches.dropLast ++ [{ b with callback := some cb }] }

/-- Observable events during a race: evaluation of the condition of a
branch on a tick, and invocation of the callback of a branch with an
element. -/
inductive RaceEvent where
  | cond (tick : Nat) (branch : Nat)
  | callbackRun (branch : Nat) (el : Element)
deriving DecidableEq, Repr

/-- State threaded through the race: the captured el variable of Do and the
events so far. -/
structure RaceState where
  el : Option Element
  events : List RaceEvent
deriving DecidableEq, Repr

/-- The branch loop inside the closure of RaceContext.Do from the source,
at a given tick, starting at branch index k: the first branch whose
condition does not fail stops the loop (running its callback when present);
an error that is not the element-not-found classification stops the loop
with that error; otherwise the next branch runs; a full pass returns
(false, nil). -/
def raceTickAux (tick : Nat) :
    Nat → List RaceBranch → RaceState → RaceState × Bool × Option GoError
  | _, [], s => (s, false, none)
  | k, b :: rest, s =>
    let s := { s with events := s.events ++ [RaceEvent.cond tick k] }
    match b.condition tick with
    | .ok bEl =>
      let s := { s with el := some bEl }
      match b.callback with
      | some cb =>
        ({ s with events := s.events ++ [RaceEvent.callbackRun k bEl] },
         true, cb bEl)
      | none => (s, true, none)
    | .error e =>
      if e.isElementNotFound then
        raceTickAux tick (k + 1) rest s
      else
        (s, true, some e)

/-- Modelled from the spec: the unbounded polling loop (utils.Retry of the
underlying library) that drives RaceContext.Do is not part of the sources
under review; per the spec it runs fn, returns the error of fn when fn
stops, otherwise sleeps (a Sleeper failure is returned at once) and goes
again.  fuel bounds the unbounded loop so the model stays total: a none
outcome means the loop had not terminated within fuel ticks. -/
def utilsRetry {E σ : Type} (sleeper : Nat → Option E)
    (fn : Nat → σ → σ × Bool × Option E) :
    Nat → Nat → σ → σ × Option (Option E)
  | 0, _, s => (s, none)
  | fuel + 1, i, s =>
    let r := fn i s
    if r.2.1 then
      (r.1, some r.2.2)
    else
      match sleeper i with
      | some e => (r.1, some (some e))
      | none => utilsRetry sleeper fn fuel (i + 1) r.1

/-- Do from the source, driven by the modelled polling loop with the given
fuel: some (el, err) is the return value of Do; none means the polling
loop was still running after fuel ticks.  The second component is the
event trace. -/
def RaceContext.Do (rc : RaceContext) (sleeper : Nat → Option GoError)
    (fuel : Nat) : Option (Option Element × Option GoError) × List RaceEvent :=
  let r := utilsRetry sleeper (fun i s => raceTickAux i 0 rc.branches s)
    fuel 0 { el := none, events := [] }
  match r.2 with
  | some err => (some (r.1.el, err), r.1.events)
  | none => (none, r.1.events)

/-- The initial search state built at the top of Page.Search: an empty
SearchResult and no calls issued yet. -/
def initSearchState : SearchState :=
  { sr := { performResult := none, first := none }, calls := [] }

/-- Concrete environment whose three search attempts all succeed with
result count 0, with distinct session identifiers. -/
def envAllZero : SearchEnv :=
  { performSearch := fun i =>
      .ok { searchID := if i = 0 then "a" else if i = 1 then "b" else "c",
            resultCount := 0 },
    getSearchResults := fun _ => .ok [1],
    elementFromNodeFails := fun _ => none }

/-- Concrete environment whose search finds 2 results but whose result
fetch fails with the transient context-not-found classification. -/
def envTransientFetch : SearchEnv :=
  { performSearch := fun _ => .ok { searchID := "s", resultCount := 2 },
    getSearchResults := fun _ => .error .ctxNotFound,
    elementFromNodeFails := fun _ => none }

/-- Concrete environment whose search finds 2 results but whose result
fetch fails with an unclassified error. -/
def envFatalFetch : SearchEnv :=
  { performSearch := fun _ => .ok { searchID := "s", resultCount := 2 },
    getSearchResults := fun _ => .error (.otherError 9),
    elementFromNodeFails := fun _ => none }

/-- Concrete environment whose search finds 2 results but returns the
sentinel node identifier 0 on every attempt. -/
def envZeroNodeID : SearchEnv :=
  { performSearch := fun _ => .ok { searchID := "s", resultCount := 2 },
    getSearchResults := fun _ => .ok [0, 4],
    elementFromNodeFails := fun _ => none }

/-- Concrete environment whose first search attempt succeeds with one
result and node identifier 7. -/
def envFound : SearchEnv :=
  { performSearch := fun _ => .ok { searchID := "s", resultCount := 1 },
    getSearchResults := fun _ => .ok [7],
    elementFromNodeFails := fun _ => none }

/-- Condition-evaluation events of one tick for n branches starting at
branch index k. -/
def condEventsFrom (tick k : Nat) : Nat → List RaceEvent
  | 0 => []
  | n + 1 => RaceEvent.cond tick k :: condEventsFrom tick (k + 1) n

/-- Condition-evaluation events of t full ticks over nb branches, starting
at tick i. -/
def fullTicksFrom (nb i : Nat) : Nat → List RaceEvent
  | 0 => []
  | t + 1 => condEventsFrom i 0 nb ++ fullTicksFrom nb (i + 1) t

/-! Lemmas about NewRetry. -/

/-- If every invocation of fn returns (false, nil) and every sleep
succeeds, the loop runs all its iterations, sleeping once after every
attempt, the last included, and returns nil. -/
lemma NewRetryAux_all_continue {E : Type} (fn : Nat → Bool × Option E)
    (sleeper : Nat → Option E) (hfn : ∀ j, fn j = (false, none))
    (hsl : ∀ j, sleeper j = none) :
    ∀ fuel i, NewRetryAux sleeper (statelessFn fn) fuel i () =
      ((), none, fuel, fuel) := by
  intro fuel
  induction fuel with
  | zero => intro i; rfl
  | succ n ih =>
    intro i
    simp [NewRetryAux, statelessFn, hfn i, hsl i, ih (i + 1)]

/-- If fn keeps returning stop = false and the Sleeper first fails on its
j-th invocation, the loop returns that failure with exactly j invocations
of fn and j of the Sleeper. -/
lemma NewRetryAux_sleeper_fails {E : Type} (fn : Nat → Bool × Option E)
    (sleeper : Nat → Option E) (e : E) :
    ∀ fuel i j, 1 ≤ j → j ≤ fuel →
      (∀ m, m < j → (fn (i + m)).1 = false) →
      (∀ m, m + 1 < j → sleeper (i + m) = none) →
      sleeper (i + (j - 1)) = some e →
      NewRetryAux sleeper (statelessFn fn) fuel i () = ((), some e, j, j) := by
  intro fuel
  induction fuel with
  | zero => intro i j h1 h2 _ _ _; omega
  | succ n ih =>
    intro i j h1 h2 hstop hsleep hfail
    have h0 : (fn i).1 = false := by simpa using hstop 0 (by omega)
    by_cases hj : j = 1
    · subst hj
      have hf : sleeper i = some e := by simpa using hfail
      simp [NewRetryAux, statelessFn, h0, hf]
    · have hs0 : sleeper i = none := by simpa using hsleep 0 (by omega)
      have hrec := ih (i + 1) (j - 1) (by omega) (by omega)
        (fun m hm => by
          have h := hstop (m + 1) (by omega)
          have harith : i + (m + 1) = i + 1 + m := by omega
          rwa [harith] at h)
        (fun m hm => by
          have h := hsleep (m + 1) (by omega)
          have harith : i + (m + 1) = i + 1 + m := by omega
          rwa [harith] at h)
        (by
          have harith : i + (j - 1) = i + 1 + (j - 1 - 1) := by omega
          rwa [harith] at hfail)
      have hj1 : j - 1 + 1 = j := by omega
      simp [NewRetryAux, statelessFn, h0, hs0, hrec, hj1]

/-- Invariant preservation through the retry loop: a property of the
closure state preserved by every invocation of fn holds of the final
state. -/
lemma NewRetryAux_invariant {E σ : Type} (sleeper : Nat → Option E)
    (fn : Nat → σ → σ × Bool × Option E) (P : σ → Prop)
    (hpres : ∀ i s, P s → P (fn i s).1) :
    ∀ fuel i s, P s → P (NewRetryAux sleeper fn fuel i s).1 := by
  intro fuel
  induction fuel with
  | zero => intro i s h; exact h
  | succ n ih =>
    intro i s h
    simp only [NewRetryAux]
    split
    · exact hpres i s h
    · split
      · exact hpres i s h
      · exact ih (i + 1) (fn i s).1 (hpres i s h)

/-- If every invocation of fn that returns a nil error leaves its output
state satisfying P, and fn never pairs stop = false with an error, then a
run of at least one iteration that returns nil ends in a state satisfying
P. -/
lemma NewRetryAux_err_none {E σ : Type} (sleeper : Nat → Option E)
    (fn : Nat → σ → σ × Bool × Option E) (P : σ → Prop)
    (hok : ∀ i s, (fn i s).2.2 = none → P (fn i s).1)
    (hcont : ∀ i s, (fn i s).2.1 = false → (fn i s).2.2 = none) :
    ∀ fuel i s, 1 ≤ fuel →
      (NewRetryAux sleeper fn fuel i s).2.1 = none →
      P (NewRetryAux sleeper fn fuel i s).1 := by
  intro fuel
  induction fuel with
  | zero => intro i s h; omega
  | succ n ih =>
    intro i s _ herr
    by_cases hstop : (fn i s).2.1 = true
    · simp only [NewRetryAux, hstop, if_true] at herr ⊢
      exact hok i s herr
    · have herr0 : (fn i s).2.2 = none := hcont i s (by simpa using hstop)
      cases hsl : sleeper i with
      | some e => simp [NewRetryAux, hstop, hsl] at herr
      | none =>
        rcases Nat.eq_zero_or_pos n with hn | hn
        · subst hn
          have h1 : P (fn i s).1 := hok i s herr0
          simpa [NewRetryAux, hstop, hsl] using h1
        · have h2 := ih (i + 1) (fn i s).1 (by omega)
            (by simpa [NewRetryAux, hstop, hsl] using herr)
          simpa [NewRetryAux, hstop, hsl] using h2

/-! Claim C1. -/

/-- C1 counterexample: with MaxRetries = 1 and fn constantly returning
(false, nil) (with a Sleeper that always succeeds), NewRetry invokes the
Sleeper once, not MaxRetries - 1 = 0 times — the Sleeper also runs after
the final attempt. -/
theorem newRetry_c1_counterexample :
    (NewRetry { sleeper := fun _ => (none : Option Nat), maxRetries := 1 }
      (statelessFn fun _ => (false, none)) ()).2.2.2 ≠ 1 - 1 := by
  decide

/-- C1 (amended): for every MaxRetries = N ≥ 1, if fn always returns
(false, nil) and the Sleeper always succeeds, NewRetry invokes fn exactly
N times, invokes the Sleeper exactly N times (once after every attempt,
the final one included), and returns nil. -/
theorem newRetry_exhaustion_counts {E : Type} (N : Nat) (hN : 1 ≤ N)
    (fn : Nat → Bool × Option E) (sleeper : Nat → Option E)
    (hfn : ∀ j, fn j = (false, none)) (hsl : ∀ j, sleeper j = none) :
    NewRetry { sleeper := sleeper, maxRetries := (N : Int) }
      (statelessFn fn) () = ((), none, N, N) := by
  have h := NewRetryAux_all_continue fn sleeper hfn hsl N 0
  simpa [NewRetry] using h

/-- C1 witness: the amended claim evaluated at N = 3 with the constant
closure and a Sleeper that always succeeds. -/
theorem newRetry_exhaustion_counts_witness :
    NewRetry { sleeper := fun _ => (none : Option Nat), maxRetries := (3 : Int) }
      (statelessFn fun _ => (false, none)) () = ((), none, 3, 3) :=
  newRetry_exhaustion_counts 3 (by decide) _ _ (fun _ => rfl) (fun _ => rfl)

/-! Claim C7. -/

/-- C7: for every attempt bound N and every fn, if fn keeps returning
stop = false and the Sleeper fails on wait j (the first j - 1 waits
succeeding), NewRetry returns that failure at once: exactly j invocations
of fn and j of the Sleeper, no further invocations. -/
theorem newRetry_sleeper_failure {E : Type} (N j : Nat) (e : E)
    (fn : Nat → Bool × Option E) (sleeper : Nat → Option E)
    (h1 : 1 ≤ j) (h2 : j ≤ N)
    (hstop : ∀ m, m < j → (fn m).1 = false)
    (hsleep : ∀ m, m + 1 < j → sleeper m = none)
    (hfail : sleeper (j - 1) = some e) :
    NewRetry { sleeper := sleeper, maxRetries := (N : Int) }
      (statelessFn fn) () = ((), some e, j, j) := by
  have h := NewRetryAux_sleeper_fails fn sleeper e N 0 j h1 h2
    (fun m hm => by simpa using hstop m hm)
    (fun m hm => by simpa using hsleep m hm)
    (by simpa using hfail)
  simpa [NewRetry] using h

/-- C7 witness: with N = 3, fn constantly (false, nil) and the Sleeper
failing on its second wait, NewRetry returns that failure after exactly 2
invocations of fn. -/
theorem newRetry_sleeper_failure_witness :
    NewRetry
      { sleeper := fun i => if i = 1 then some 7 else (none : Option Nat),
        maxRetries := (3 : Int) }
      (statelessFn fun _ => (false, none)) () = ((), some 7, 2, 2) :=
  newRetry_sleeper_failure 3 2 7 _ _ (by decide) (by decide)
    (fun m _ => rfl)
    (fun m hm => by
      have hm0 : m = 0 := by omega
      subst hm0; rfl)
    rfl

/-! Lemmas about the search closure. -/

/-- The search closure never pairs stop = false with an error. -/
lemma searchFn_stop_false_err_none (env : SearchEnv) (q : String) (i : Nat)
    (s : SearchState) (h : (searchFn env q i s).2.1 = false) :
    (searchFn env q i s).2.2 = none := by
  simp only [searchFn] at h ⊢
  split at h
  · simp at h
  · split at h <;> simp_all
    split at h
    · split at h <;> simp_all
    · split at h
      · simp at h
      · split at h <;> simp_all
        split at h <;> simp_all

/-- When the search closure returns a nil error, the embedded
DOMPerformSearchResult of its output state is set. -/
lemma searchFn_err_none_performSet (env : SearchEnv) (q : String) (i : Nat)
    (s : SearchState) (h : (searchFn env q i s).2.2 = none) :
    ((searchFn env q i s).1).sr.performResult.isSome := by
  simp only [searchFn] at h ⊢
  split at h
  · simp at h
  · split at h <;> simp_all
    split at h
    · split at h <;> simp_all
    · split at h
      · simp at h
      · split at h <;> simp_all
        split at h <;> simp_all

/-- The search closure never stores a handle with node identifier 0 in
First: the sentinel branch retries instead of materializing. -/
lemma searchFn_first_ne_zero (env : SearchEnv) (q : String) (i : Nat)
    (s : SearchState)
    (hP : ∀ el, s.sr.first = some el → el.nodeID ≠ 0) :
    ∀ el, ((searchFn env q i s).1).sr.first = some el → el.nodeID ≠ 0 := by
  intro el hel
  simp only [searchFn] at hel
  split at hel
  · exact hP el hel
  · split at hel
    · exact hP el hel
    · split at hel
      · split at hel
        · exact hP el hel
        · exact hP el hel
      · split at hel
        · exact hP el hel
        · split at hel
          · exact hP el hel
          · rename_i id rest hid
            split at hel
            · exact hP el hel
            · rename_i el' helem
              simp only [elementFromNode] at helem
              split at helem
              · simp at helem
              · simp only [Except.ok.injEq] at helem
                simp only [SearchState.mk.injEq] at hel
                have : el = el' := by
                  have h1 := hel
                  simp at h1
                  exact h1.symm ▸ rfl
                subst this
                rw [← helem]
                simpa using hid

/-- The inner NewRetry run of Page.Search, and how the returned SearchRun
reads off it: a some result forces the nil-error branch. -/
lemma pageSearch_result_some (env : SearchEnv) (sleeper : Nat → Option GoError)
    (q : String) (sr : SearchResult)
    (h : (pageSearch env sleeper q).result = some sr) :
    (NewRetry
        { sleeper := fun i => (sleeper i).map RunErr.user, maxRetries := 3 }
        (searchFn env q) initSearchState).2.1 = none ∧
      sr = (NewRetry
        { sleeper := fun i => (sleeper i).map RunErr.user, maxRetries := 3 }
        (searchFn env q) initSearchState).1.sr := by
  simp only [pageSearch, initSearchState] at h ⊢
  split at h
  · simp at h
  · simp_all

/-! Claim C2. -/

/-- C2: for a query whose three DOMPerformSearch calls all succeed with
result count 0 (and a Sleeper that always succeeds), Page.Search runs
exactly 3 attempts, returns a SearchResult with First nil and a nil error,
performs no discard on the first attempt, and discards the previous
session on each later attempt, where a prior DOMPerformSearchResult
exists. -/
theorem search_all_zero_results (env : SearchEnv)
    (sleeper : Nat → Option GoError) (q : String)
    (r0 r1 r2 : DOMPerformSearchResult)
    (h0 : env.performSearch 0 = .ok r0) (hc0 : r0.resultCount = 0)
    (h1 : env.performSearch 1 = .ok r1) (hc1 : r1.resultCount = 0)
    (h2 : env.performSearch 2 = .ok r2) (hc2 : r2.resultCount = 0)
    (hsl : ∀ i, sleeper i = none) :
    pageSearch env sleeper q =
      { result := some { performResult := some r2, first := none },
        error := none,
        calls := [ProtoCall.performSearch q,
                  ProtoCall.discardSearchResults r0.searchID,
                  ProtoCall.performSearch q,
                  ProtoCall.discardSearchResults r1.searchID,
                  ProtoCall.performSearch q],
        attempts := 3, sleeps := 3 } := by
  simp [pageSearch, NewRetry, NewRetryAux, searchFn, preDiscard,
    h0, h1, h2, hc0, hc1, hc2, hsl 0, hsl 1, hsl 2]

/-- C2 witness: the concrete all-zero environment evaluated through the
theorem. -/
theorem search_all_zero_results_witness :
    pageSearch envAllZero (fun _ => none) "q" =
      { result := some
          { performResult := some { searchID := "c", resultCount := 0 },
            first := none },
        error := none,
        calls := [ProtoCall.performSearch "q",
                  ProtoCall.discardSearchResults "a",
                  ProtoCall.performSearch "q",
                  ProtoCall.discardSearchResults "b",
                  ProtoCall.performSearch "q"],
        attempts := 3, sleeps := 3 } :=
  search_all_zero_results envAllZero _ "q"
    { searchID := "a", resultCount := 0 }
    { searchID := "b", resultCount := 0 }
    { searchID := "c", resultCount := 0 }
    rfl rfl rfl rfl rfl rfl (fun _ => rfl)

/-! Claim C4. -/

/-- C4: inside a Search attempt with a nonzero result count, a
DOMGetSearchResults failure classified context-not-found or
search-session-not-found makes the attempt signal retry (stop false, nil
error) issuing no further call (in particular no discard); any other
failure makes the attempt stop with that error, and Page.Search
propagates it unchanged with a nil SearchResult. -/
theorem search_fetch_error_classification (env : SearchEnv) (q : String) :
    (∀ i s res e, env.performSearch i = .ok res → res.resultCount ≠ 0 →
      env.getSearchResults i = .error e →
      (e.isCtxNotFound || e.isSearchSessionNotFound) = true →
      searchFn env q i s =
        ({ sr := { s.sr with performResult := some res },
           calls := s.calls ++ preDiscard s.sr ++
             [ProtoCall.performSearch q,
              ProtoCall.getSearchResults res.searchID 0 1] },
         false, none))
    ∧ (∀ i s res e, env.performSearch i = .ok res → res.resultCount ≠ 0 →
      env.getSearchResults i = .error e →
      e.isCtxNotFound = false → e.isSearchSessionNotFound = false →
      searchFn env q i s =
        ({ sr := { s.sr with performResult := some res },
           calls := s.calls ++ preDiscard s.sr ++
             [ProtoCall.performSearch q,
              ProtoCall.getSearchResults res.searchID 0 1] },
         true, some (.user e)))
    ∧ (∀ sleeper res e, env.performSearch 0 = .ok res →
      res.resultCount ≠ 0 → env.getSearchResults 0 = .error e →
      e.isCtxNotFound = false → e.isSearchSessionNotFound = false →
      pageSearch env sleeper q =
        { result := none, error := some (.user e),
          calls := [ProtoCall.performSearch q,
                    ProtoCall.getSearchResults res.searchID 0 1],
          attempts := 1, sleeps := 0 }) := by
  refine ⟨?_, ?_, ?_⟩
  · intro i s res e hps hc hgs hcls
    simp [searchFn, hps, hc, hgs, hcls]
  · intro i s res e hps hc hgs hc1 hc2
    simp [searchFn, hps, hc, hgs, hc1, hc2]
  · intro sleeper res e hps hc hgs hc1 hc2
    simp [pageSearch, NewRetry, NewRetryAux, searchFn, preDiscard,
      initSearchState, hps, hc, hgs, hc1, hc2]

/-- C4 witness: the transient conjunct on the concrete context-not-found
environment and the fatal conjunct on the concrete unclassified-error
environment. -/
theorem search_fetch_error_classification_witness :
    searchFn envTransientFetch "q" 0 initSearchState =
      ({ sr := { performResult := some { searchID := "s", resultCount := 2 },
                 first := none },
         calls := [ProtoCall.performSearch "q",
                   ProtoCall.getSearchResults "s" 0 1] },
       false, none)
    ∧ pageSearch envFatalFetch (fun _ => none) "q" =
      { result := none, error := some (.user (.otherError 9)),
        calls := [ProtoCall.performSearch "q",
                  ProtoCall.getSearchResults "s" 0 1],
        attempts := 1, sleeps := 0 } := by
  constructor
  · have h := (search_fetch_error_classification envTransientFetch "q").1 0
      initSearchState { searchID := "s", resultCount := 2 } .ctxNotFound
      rfl (by decide) rfl rfl
    simpa [initSearchState, preDiscard] using h
  · exact (search_fetch_error_classification envFatalFetch "q").2.2
      (fun _ => none) { searchID := "s", resultCount := 2 } (.otherError 9)
      rfl (by decide) rfl rfl rfl

/-! Claim C5. -/

/-- C5: inside a Search attempt with a nonzero result count, a fetched
first node identifier of 0 makes the attempt issue a DOMGetDocument
refresh and signal retry, leaving First untouched; and no SearchResult
returned by Page.Search ever carries a First handle with node identifier
0. -/
theorem search_sentinel_zero (env : SearchEnv) (q : String) :
    (∀ i s res ids, env.performSearch i = .ok res → res.resultCount ≠ 0 →
      env.getSearchResults i = .ok (0 :: ids) →
      searchFn env q i s =
        ({ sr := { s.sr with performResult := some res },
           calls := s.calls ++ preDiscard s.sr ++
             [ProtoCall.performSearch q,
              ProtoCall.getSearchResults res.searchID 0 1,
              ProtoCall.getDocument] },
         false, none))
    ∧ (∀ sleeper sr el, (pageSearch env sleeper q).result = some sr →
      sr.first = some el → el.nodeID ≠ 0) := by
  constructor
  · intro i s res ids hps hc hgs
    simp [searchFn, hps, hc, hgs]
  · intro sleeper sr el hres hel
    rcases pageSearch_result_some env sleeper q sr hres with ⟨-, hsr⟩
    have hinv := NewRetryAux_invariant
      (fun i => (sleeper i).map RunErr.user) (searchFn env q)
      (fun s => ∀ el, s.sr.first = some el → el.nodeID ≠ 0)
      (fun i s hP => searchFn_first_ne_zero env q i s hP)
      ((3 : Int)).toNat 0 initSearchState
      (by simp [initSearchState])
    exact hinv el (hsr ▸ hel)

/-- C5 witness: on the concrete sentinel environment the first attempt with
node identifier 0 refreshes the document and retries, and a found result
from the concrete successful environment has a nonzero identifier. -/
theorem search_sentinel_zero_witness :
    searchFn envZeroNodeID "q" 0 initSearchState =
      ({ sr := { performResult := some { searchID := "s", resultCount := 2 },
                 first := none },
         calls := [ProtoCall.performSearch "q",
                   ProtoCall.getSearchResults "s" 0 1,
                   ProtoCall.getDocument] },
       false, none)
    ∧ ((7 : Nat) ≠ 0) := by
  constructor
  · have h := (search_sentinel_zero envZeroNodeID "q").1 0 initSearchState
      { searchID := "s", resultCount := 2 } [4] rfl (by decide) rfl
    simpa [initSearchState, preDiscard] using h
  · have h := (search_sentinel_zero envFound "q").2 (fun _ => none)
      { performResult := some { searchID := "s", resultCount := 1 },
        first := some { objectID := "", nodeID := 7 } }
      { objectID := "", nodeID := 7 }
      (by decide) rfl
    exact h

/-! Claim C9. -/

/-- C9: every SearchResult returned by Page.Search with a nil error
carries a set embedded DOMPerformSearchResult, so Release runs the
restore action and issues the remote discard with its SearchID, with no
nil dereference. -/
theorem search_release_safe (env : SearchEnv)
    (sleeper : Nat → Option GoError) (q : String) :
    ∀ sr, (pageSearch env sleeper q).result = some sr →
      (pageSearch env sleeper q).error = none →
      ∃ r, sr.performResult = some r ∧
        sr.Release = .ok [.restore, .discard r.searchID] := by
  intro sr hres _
  rcases pageSearch_result_some env sleeper q sr hres with ⟨herr, hsr⟩
  have hset : ((NewRetry
      { sleeper := fun i => (sleeper i).map RunErr.user, maxRetries := 3 }
      (searchFn env q) initSearchState).1).sr.performResult.isSome := by
    have h := NewRetryAux_err_none
      (fun i => (sleeper i).map RunErr.user) (searchFn env q)
      (fun s => s.sr.performResult.isSome)
      (fun i s h => searchFn_err_none_performSet env q i s h)
      (fun i s h => searchFn_stop_false_err_none env q i s h)
      ((3 : Int)).toNat 0 initSearchState (by simp)
      (by simpa [NewRetry] using herr)
    simpa [NewRetry] using h
  rw [hsr]
  rcases Option.isSome_iff_exists.mp hset with ⟨r, hr⟩
  exact ⟨r, hr, by simp [SearchResult.Release, hr]⟩

/-- C9 witness: the all-zero environment returns a SearchResult with no
First element, and Release on it still restores and discards session c. -/
theorem search_release_safe_witness :
    ∃ r, ({ performResult := some { searchID := "c", resultCount := 0 },
            first := none } : SearchResult).performResult = some r ∧
      SearchResult.Release
        { performResult := some { searchID := "c", resultCount := 0 },
          first := none } = .ok [.restore, .discard r.searchID] :=
  search_release_safe envAllZero (fun _ => none) "q"
    { performResult := some { searchID := "c", resultCount := 0 },
      first := none }
    (by decide) (by decide)

/-! Lemmas about the element-list enumeration loop. -/

/-- When every non-skipped entry is node-typed and materializes to w of
the entry, the loop returns the accumulator followed by the images of the
kept entries in enumeration order. -/
lemma elementsLoop_ok (env : ElementsEnv) (w : PropEntry → Element) :
    ∀ entries acc,
      (∀ o ∈ entries, ¬(o.name = "__proto__" ∨ o.name = "length") →
        o.value.subtype = RemoteSubtype.node ∧
          env.elementFromObject o.value = .ok (w o)) →
      elementsLoop env entries acc = .ok (acc ++ (keptEntries entries).map w) := by
  intro entries
  induction entries with
  | nil => intro acc _; simp [elementsLoop, keptEntries]
  | cons o rest ih =>
    intro acc h
    by_cases hskip : o.name = "__proto__" ∨ o.name = "length"
    · simp only [elementsLoop, keptEntries, hskip, if_true]
      exact ih acc (fun o' ho' => h o' (by simp [ho']))
    · rcases h o (by simp) hskip with ⟨hnode, hefo⟩
      simp only [elementsLoop, keptEntries, hskip, if_false, hnode, hefo]
      rw [ih (acc ++ [w o]) (fun o' ho' => h o' (by simp [ho']))]
      simp

/-- When the loop reaches a non-skipped entry that is not node-typed (all
earlier entries being either skipped or successfully materialized nodes),
the whole call fails with ErrExpectElements of that value. -/
lemma elementsLoop_bad (env : ElementsEnv) :
    ∀ pre bad rest acc,
      (∀ o ∈ pre, (o.name = "__proto__" ∨ o.name = "length") ∨
        (o.value.subtype = RemoteSubtype.node ∧
          ∃ el, env.elementFromObject o.value = .ok el)) →
      ¬(bad.name = "__proto__" ∨ bad.name = "length") →
      bad.value.subtype ≠ RemoteSubtype.node →
      elementsLoop env (pre ++ bad :: rest) acc =
        .error (.expectElements bad.value) := by
  intro pre
  induction pre with
  | nil =>
    intro bad rest acc _ hskip hnode
    simp [elementsLoop, hskip, hnode]
  | cons o os ih =>
    intro bad rest acc h hskip hnode
    rcases h o (by simp) with hsk | ⟨hn, el, hefo⟩
    · simp only [List.cons_append, elementsLoop, hsk, if_true]
      exact ih bad rest acc (fun o' ho' => h o' (by simp [ho'])) hskip hnode
    · by_cases hsk : o.name = "__proto__" ∨ o.name = "length"
      · simp only [List.cons_append, elementsLoop, hsk, if_true]
        exact ih bad rest acc (fun o' ho' => h o' (by simp [ho'])) hskip hnode
      · simp only [List.cons_append, elementsLoop, hsk, if_false, hn, hefo]
        exact ih bad rest (acc ++ [el]) (fun o' ho' => h o' (by simp [ho'])) hskip hnode

/-! Claim C8. -/

/-- C8: when the remote evaluation yields an array-typed object,
ElementsByJS enumerates the own properties skipping __proto__ and length,
returns exactly the node-typed entries as handles in enumeration order,
fails the whole call on the first non-skipped entry that is not
node-typed, and releases the array container exactly once on every such
path, success or failure. -/
theorem elements_by_js_spec (env : ElementsEnv) :
    (∀ res entries w, env.evaluate = .ok res →
      res.subtype = RemoteSubtype.array →
      env.getProperties res.objectID = .ok entries →
      (∀ o ∈ entries, ¬(o.name = "__proto__" ∨ o.name = "length") →
        o.value.subtype = RemoteSubtype.node ∧
          env.elementFromObject o.value = .ok (w o)) →
      elementsByJS env = (.ok ((keptEntries entries).map w), [res.objectID]))
    ∧ (∀ res pre bad rest, env.evaluate = .ok res →
      res.subtype = RemoteSubtype.array →
      env.getProperties res.objectID = .ok (pre ++ bad :: rest) →
      (∀ o ∈ pre, (o.name = "__proto__" ∨ o.name = "length") ∨
        (o.value.subtype = RemoteSubtype.node ∧
          ∃ el, env.elementFromObject o.value = .ok el)) →
      ¬(bad.name = "__proto__" ∨ bad.name = "length") →
      bad.value.subtype ≠ RemoteSubtype.node →
      elementsByJS env = (.error (.expectElements bad.value), [res.objectID]))
    ∧ (∀ res, env.evaluate = .ok res → res.subtype = RemoteSubtype.array →
      (elementsByJS env).2 = [res.objectID]) := by
  refine ⟨?_, ?_, ?_⟩
  · intro res entries w hev harr hprops hgood
    rw [show elementsByJS env = (elementsLoop env entries [], [res.objectID]) by
      simp [elementsByJS, hev, harr, hprops]]
    rw [elementsLoop_ok env w entries [] hgood]
    simp
  · intro res pre bad rest hev harr hprops hpre hskip hnode
    rw [show elementsByJS env =
        (elementsLoop env (pre ++ bad :: rest) [], [res.objectID]) by
      simp [elementsByJS, hev, harr, hprops]]
    rw [elementsLoop_bad env pre bad rest [] hpre hskip hnode]
  · intro res hev harr
    cases hprops : env.getProperties res.objectID with
    | error e => simp [elementsByJS, hev, harr, hprops]
    | ok entries => simp [elementsByJS, hev, harr, hprops]

/-- C8 witness: a remote array of three node entries plus synthetic length
and __proto__ own-properties yields exactly the three handles in order
with the container released once, and an array with a primitive entry in
the middle fails with ErrExpectElements, the container again released
once. -/
theorem elements_by_js_spec_witness :
    elementsByJS
      { evaluate := .ok { subtype := RemoteSubtype.array, objectID := "arr" },
        getProperties := fun _ => .ok
          [{ name := "0", value := { subtype := RemoteSubtype.node, objectID := "n0" } },
           { name := "1", value := { subtype := RemoteSubtype.node, objectID := "n1" } },
           { name := "2", value := { subtype := RemoteSubtype.node, objectID := "n2" } },
           { name := "length", value := { subtype := RemoteSubtype.otherSubtype, objectID := "ln" } },
           { name := "__proto__", value := { subtype := RemoteSubtype.otherSubtype, objectID := "pr" } }],
        elementFromObject := fun o => .ok { objectID := o.objectID, nodeID := 1 } } =
      (.ok [{ objectID := "n0", nodeID := 1 }, { objectID := "n1", nodeID := 1 },
            { objectID := "n2", nodeID := 1 }], ["arr"])
    ∧ elementsByJS
      { evaluate := .ok { subtype := RemoteSubtype.array, objectID := "arr" },
        getProperties := fun _ => .ok
          [{ name := "0", value := { subtype := RemoteSubtype.node, objectID := "n0" } },
           { name := "1", value := { subtype := RemoteSubtype.null, objectID := "bad" } },
           { name := "2", value := { subtype := RemoteSubtype.node, objectID := "n2" } }],
        elementFromObject := fun o => .ok { objectID := o.objectID, nodeID := 1 } } =
      (.error (.expectElements { subtype := RemoteSubtype.null, objectID := "bad" }),
       ["arr"]) := by
  constructor
  · have h := (elements_by_js_spec
      { evaluate := .ok { subtype := RemoteSubtype.array, objectID := "arr" },
        getProperties := fun _ => .ok
          [{ name := "0", value := { subtype := RemoteSubtype.node, objectID := "n0" } },
           { name := "1", value := { subtype := RemoteSubtype.node, objectID := "n1" } },
           { name := "2", value := { subtype := RemoteSubtype.node, objectID := "n2" } },
           { name := "length", value := { subtype := RemoteSubtype.otherSubtype, objectID := "ln" } },
           { name := "__proto__", value := { subtype := RemoteSubtype.otherSubtype, objectID := "pr" } }],
        elementFromObject := fun o => .ok { objectID := o.objectID, nodeID := 1 } }).1
      { subtype := RemoteSubtype.array, objectID := "arr" } _
      (fun o => { objectID := o.value.objectID, nodeID := 1 })
      rfl rfl rfl (by decide)
    simpa [keptEntries] using h
  · have h := (elements_by_js_spec
      { evaluate := .ok { subtype := RemoteSubtype.array, objectID := "arr" },
        getProperties := fun _ => .ok
          [{ name := "0", value := { subtype := RemoteSubtype.node, objectID := "n0" } },
           { name := "1", value := { subtype := RemoteSubtype.null, objectID := "bad" } },
           { name := "2", value := { subtype := RemoteSubtype.node, objectID := "n2" } }],
        elementFromObject := fun o => .ok { objectID := o.objectID, nodeID := 1 } }).2.1
      { subtype := RemoteSubtype.array, objectID := "arr" }
      [{ name := "0", value := { subtype := RemoteSubtype.node, objectID := "n0" } }]
      { name := "1", value := { subtype := RemoteSubtype.null, objectID := "bad" } }
      [{ name := "2", value := { subtype := RemoteSubtype.node, objectID := "n2" } }]
      rfl rfl rfl
      (by
        intro o ho
        simp only [List.mem_singleton] at ho
        subst ho
        exact Or.inr ⟨rfl, ⟨{ objectID := "n0", nodeID := 1 }, rfl⟩⟩)
      (by decide) (by decide)
    exact h

/-! Lemmas about the race branch loop. -/

/-- A tick over branches that all report element-not-found records one
condition evaluation per branch, in registration order, and signals no
stop. -/
lemma raceTickAux_all_notFound (tick : Nat) :
    ∀ bs k s, (∀ b ∈ bs, b.condition tick = .error .elementNotFound) →
      raceTickAux tick k bs s =
        ({ s with events := s.events ++ condEventsFrom tick k bs.length },
         false, none) := by
  intro bs
  induction bs with
  | nil => intro k s _; simp [raceTickAux, condEventsFrom]
  | cons b rest ih =>
    intro k s h
    have hb : b.condition tick = .error .elementNotFound := h b (by simp)
    simp only [raceTickAux, hb, GoError.isElementNotFound, if_true]
    rw [ih (k + 1) _ (fun b' hb' => h b' (by simp [hb']))]
    simp [condEventsFrom]

/-- On a tick where every branch before b reports element-not-found and
the condition of b returns a handle, the loop stops at b: the conditions
of the earlier branches and of b are each evaluated once in order, the
callback of b (when present) runs once with the handle, the handle is
captured, and the error of the callback is returned. -/
lemma raceTickAux_first_success (tick : Nat) (e : Element) :
    ∀ pre (b : RaceBranch) rest k s,
      (∀ br ∈ pre, br.condition tick = .error .elementNotFound) →
      b.condition tick = .ok e →
      raceTickAux tick k (pre ++ b :: rest) s =
        ({ el := some e,
           events := s.events ++ condEventsFrom tick k pre.length ++
             [RaceEvent.cond tick (k + pre.length)] ++
             (match b.callback with
              | some _ => [RaceEvent.callbackRun (k + pre.length) e]
              | none => []) },
         true,
         match b.callback with
         | some cb => cb e
         | none => none) := by
  intro pre
  induction pre with
  | nil =>
    intro b rest k s _ hb
    cases hcb : b.callback with
    | some cb => simp [raceTickAux, hb, hcb, condEventsFrom]
    | none => simp [raceTickAux, hb, hcb, condEventsFrom]
  | cons p ps ih =>
    intro b rest k s h hb
    have hp : p.condition tick = .error .elementNotFound := h p (by simp)
    simp only [List.cons_append, raceTickAux, hp, GoError.isElementNotFound,
      if_true, List.append_eq]
    rw [ih b rest (k + 1) _ (fun br hbr => h br (by simp [hbr])) hb]
    have harith : k + 1 + ps.length = k + (ps.length + 1) := by omega
    cases hcb : b.callback <;> simp [hcb, condEventsFrom, harith]

/-- On a tick where every branch before b reports element-not-found and
the condition of b fails with an error that is not the element-not-found
classification, the loop stops at b with that error, evaluating no later
branch and capturing no handle. -/
lemma raceTickAux_first_fatal (tick : Nat) (e : GoError)
    (hne : e.isElementNotFound = false) :
    ∀ pre (b : RaceBranch) rest k s,
      (∀ br ∈ pre, br.condition tick = .error .elementNotFound) →
      b.condition tick = .error e →
      raceTickAux tick k (pre ++ b :: rest) s =
        ({ s with events := s.events ++ condEventsFrom tick k pre.length ++
             [RaceEvent.cond tick (k + pre.length)] },
         true, some e) := by
  intro pre
  induction pre with
  | nil =>
    intro b rest k s _ hb
    simp [raceTickAux, hb, hne, condEventsFrom]
  | cons p ps ih =>
    intro b rest k s h hb
    have hp : p.condition tick = .error .elementNotFound := h p (by simp)
    simp only [List.cons_append, raceTickAux, hp, GoError.isElementNotFound,
      if_true, List.append_eq]
    rw [ih b rest (k + 1) _ (fun br hbr => h br (by simp [hbr])) hb]
    have harith : k + 1 + ps.length = k + (ps.length + 1) := by omega
    simp [condEventsFrom, harith]

/-- Skipping t ticks on which every branch reports element-not-found and
every sleep succeeds: the loop continues from tick i + t with the
accumulated per-tick condition events. -/
lemma utilsRetry_race_skip (branches : List RaceBranch)
    (sleeper : Nat → Option GoError) :
    ∀ t fuel i s,
      (∀ u, u < t → ∀ br ∈ branches,
        br.condition (i + u) = .error .elementNotFound) →
      (∀ u, u < t → sleeper (i + u) = none) →
      t ≤ fuel →
      utilsRetry sleeper (fun j s => raceTickAux j 0 branches s) fuel i s =
        utilsRetry sleeper (fun j s => raceTickAux j 0 branches s)
          (fuel - t) (i + t)
          { s with events := s.events ++ fullTicksFrom branches.length i t } := by
  intro t
  induction t with
  | zero => intro fuel i s _ _ _; simp [fullTicksFrom]
  | succ n ih =>
    intro fuel i s hcond hsl hle
    cases fuel with
    | zero => omega
    | succ f =>
      have h0 : ∀ br ∈ branches, br.condition i = .error .elementNotFound := by
        have h := hcond 0 (by omega)
        simpa using h
      have hs0 : sleeper i = none := by simpa using hsl 0 (by omega)
      have htick := raceTickAux_all_notFound i branches 0 s h0
      simp only [utilsRetry, htick, if_false, hs0]
      have hrec := ih f (i + 1)
        { s with events := s.events ++ condEventsFrom i 0 branches.length }
        (fun u hu br hbr => by
          have h := hcond (u + 1) (by omega) br hbr
          have harith : i + (u + 1) = i + 1 + u := by omega
          rwa [harith] at h)
        (fun u hu => by
          have h := hsl (u + 1) (by omega)
          have harith : i + (u + 1) = i + 1 + u := by omega
          rwa [harith] at h)
        (by omega)
      rw [hrec]
      have harith : i + 1 + n = i + (n + 1) := by omega
      simp [fullTicksFrom, harith]

/-! Claim C3. -/

/-- C3: when the loop reaches tick t (every branch reporting
element-not-found on every earlier tick, every sleep succeeding) and on
tick t every branch registered before b reports element-not-found while
the condition of b returns a handle, Do stops on that tick: branches are
evaluated in registration order, b wins regardless of what the branches
after it would do, the callback of b (when present) runs exactly once
with the resolved handle, and Do returns that handle together with the
error of the callback. -/
theorem race_first_success_wins (pre : List RaceBranch) (b : RaceBranch)
    (rest : List RaceBranch) (sleeper : Nat → Option GoError)
    (t fuel : Nat) (e : Element)
    (hprev : ∀ u, u < t → ∀ br ∈ pre ++ b :: rest,
      br.condition u = .error .elementNotFound)
    (hsl : ∀ u, u < t → sleeper u = none)
    (hpre : ∀ br ∈ pre, br.condition t = .error .elementNotFound)
    (hb : b.condition t = .ok e)
    (hfuel : t < fuel) :
    RaceContext.Do { branches := pre ++ b :: rest } sleeper fuel =
      (some (some e,
         match b.callback with
         | some cb => cb e
         | none => none),
       fullTicksFrom (pre ++ b :: rest).length 0 t ++
         condEventsFrom t 0 pre.length ++
         [RaceEvent.cond t pre.length] ++
         (match b.callback with
          | some _ => [RaceEvent.callbackRun pre.length e]
          | none => [])) := by
  unfold RaceContext.Do
  rw [utilsRetry_race_skip (pre ++ b :: rest) sleeper t fuel 0
    { el := none, events := [] }
    (fun u hu br hbr => by simpa using hprev u hu br hbr)
    (fun u hu => by simpa using hsl u hu) (by omega)]
  obtain ⟨f, hf⟩ : ∃ f, fuel - t = f + 1 := ⟨fuel - t - 1, by omega⟩
  rw [hf]
  have htick := raceTickAux_first_success t e pre b rest 0
    { el := none,
      events := [] ++ fullTicksFrom (pre ++ b :: rest).length 0 t }
    hpre hb
  simp only [Nat.zero_add, utilsRetry, htick]
  cases hcb : b.callback <;> simp [hcb]

/-- C3 witness: two branches would both succeed on tick 0, preceded by a
not-found branch; the first-registered succeeding branch wins, its
callback runs once, and its handle is returned. -/
theorem race_first_success_wins_witness :
    RaceContext.Do
      { branches :=
          [{ condition := fun _ => .error .elementNotFound, callback := none },
           { condition := fun _ => .ok { objectID := "x", nodeID := 3 },
             callback := some (fun _ => none) },
           { condition := fun _ => .ok { objectID := "y", nodeID := 4 },
             callback := none }] }
      (fun _ => none) 1 =
      (some (some { objectID := "x", nodeID := 3 }, none),
       [RaceEvent.cond 0 0, RaceEvent.cond 0 1,
        RaceEvent.callbackRun 1 { objectID := "x", nodeID := 3 }]) := by
  have h := race_first_success_wins
    [{ condition := fun _ => .error .elementNotFound, callback := none }]
    { condition := fun _ => .ok { objectID := "x", nodeID := 3 },
      callback := some (fun _ => none) }
    [{ condition := fun _ => .ok { objectID := "y", nodeID := 4 },
       callback := none }]
    (fun _ => none) 0 1 { objectID := "x", nodeID := 3 }
    (fun u hu => absurd hu (by omega))
    (fun u hu => absurd hu (by omega))
    (fun br hbr => by
      have h1 := List.mem_singleton.mp hbr
      subst h1; rfl)
    rfl (by omega)
  simpa [fullTicksFrom, condEventsFrom] using h

/-! Claim C6. -/

/-- C6: when the loop reaches tick t and on that tick every branch
registered before b reports element-not-found while the condition of b
fails with an error that is not the element-not-found classification, the
whole race aborts at once regardless of the position of b: Do returns
that error (with no handle), the event trace shows that no branch after b
is evaluated on tick t, and no tick after t occurs. -/
theorem race_fatal_error_aborts (pre : List RaceBranch) (b : RaceBranch)
    (rest : List RaceBranch) (sleeper : Nat → Option GoError)
    (t fuel : Nat) (e : GoError)
    (hne : e.isElementNotFound = false)
    (hprev : ∀ u, u < t → ∀ br ∈ pre ++ b :: rest,
      br.condition u = .error .elementNotFound)
    (hsl : ∀ u, u < t → sleeper u = none)
    (hpre : ∀ br ∈ pre, br.condition t = .error .elementNotFound)
    (hb : b.condition t = .error e)
    (hfuel : t < fuel) :
    RaceContext.Do { branches := pre ++ b :: rest } sleeper fuel =
      (some (none, some e),
       fullTicksFrom (pre ++ b :: rest).length 0 t ++
         condEventsFrom t 0 pre.length ++ [RaceEvent.cond t pre.length]) := by
  unfold RaceContext.Do
  rw [utilsRetry_race_skip (pre ++ b :: rest) sleeper t fuel 0
    { el := none, events := [] }
    (fun u hu br hbr => by simpa using hprev u hu br hbr)
    (fun u hu => by simpa using hsl u hu) (by omega)]
  obtain ⟨f, hf⟩ : ∃ f, fuel - t = f + 1 := ⟨fuel - t - 1, by omega⟩
  rw [hf]
  have htick := raceTickAux_first_fatal t e hne pre b rest 0
    { el := none,
      events := [] ++ fullTicksFrom (pre ++ b :: rest).length 0 t }
    hpre hb
  simp only [Nat.zero_add, utilsRetry, htick]
  simp

/-- C6 witness: a not-found branch followed by a branch failing with an
unclassified error and a branch that would succeed; the race aborts on
tick 0 with the error, the succeeding branch never evaluated. -/
theorem race_fatal_error_aborts_witness :
    RaceContext.Do
      { branches :=
          [{ condition := fun _ => .error .elementNotFound, callback := none },
           { condition := fun _ => .error (.otherError 3), callback := none },
           { condition := fun _ => .ok { objectID := "y", nodeID := 4 },
             callback := none }] }
      (fun _ => none) 1 =
      (some (none, some (.otherError 3)),
       [RaceEvent.cond 0 0, RaceEvent.cond 0 1]) := by
  have h := race_fatal_error_aborts
    [{ condition := fun _ => .error .elementNotFound, callback := none }]
    { condition := fun _ => .error (.otherError 3), callback := none }
    [{ condition := fun _ => .ok { objectID := "y", nodeID := 4 },
       callback := none }]
    (fun _ => none) 0 1 (.otherError 3) rfl
    (fun u hu => absurd hu (by omega))
    (fun u hu => absurd hu (by omega))
    (fun br hbr => by
      have h1 := List.mem_singleton.mp hbr
      subst h1; rfl)
    rfl (by omega)
  simpa [fullTicksFrom, condEventsFrom] using h

/-! Claim C10. -/

/-- C10: Handle attaches the callback to the most recently registered
branch, and on a RaceContext with no registered branches the index
expression branches[len(branches)-1] is a runtime fault. -/
theorem race_handle_last_or_fault (rc : RaceContext) :
    (∀ cb, rc.branches = [] → RaceContext.Handle rc cb = none)
    ∧ (∀ cb bs b, rc.branches = bs ++ [b] →
      RaceContext.Handle rc cb =
        some { branches := bs ++ [{ b with callback := some cb }] }) := by
  constructor
  · intro cb hbr
    simp [RaceContext.Handle, hbr]
  · intro cb bs b hbr
    simp [RaceContext.Handle, hbr, List.getLast?_concat, List.dropLast_concat]

/-- C10 witness: Handle on an empty RaceContext faults, and Handle after
one registration attaches the callback to that branch. -/
theorem race_handle_last_or_fault_witness :
    RaceContext.Handle { branches := [] } (fun _ => none) = none
    ∧ RaceContext.Handle
        { branches :=
            [{ condition := fun _ => .error .elementNotFound, callback := none }] }
        (fun _ => none) =
      some { branches :=
        [{ condition := fun _ => .error .elementNotFound,
           callback := some (fun _ => none) }] } := by
  constructor
  · exact (race_handle_last_or_fault { branches := [] }).1 (fun _ => none) rfl
  · have h := (race_handle_last_or_fault
      { branches :=
          [{ condition := fun _ => .error .elementNotFound, callback := none }] }).2
      (fun _ => none) []
      { condition := fun _ => .error .elementNotFound, callback := none } rfl
    simpa using h

end RodPro
